import Mathlib

/-!
Shallow embedding of the temperature-logger firmware core: the 24FC256
EEPROM driver (capacity and page-boundary checks, data write, ACK
polling), the fixed-point Q12.4 codec, the default combined write-read
of the I2C controller interface, and the main-loop logging controller.

Bus transports are modelled as response environments: the n-th bus
transaction issued by one driver call receives the status and read
bytes the environment gives at index n. Driver operations return their
C result together with the trace of transactions they issued.

Float values are modelled as rationals. Every float operation the code
performs on temperatures is a multiplication or division by 16, which
is exact in IEEE floating point (a power-of-two scaling), so the
rational model computes exactly the values the C code computes on
float-representable inputs.
-/

namespace TempLogger

/-- Status codes for I2C operations, from II2CController.hpp. -/
inductive I2CStatus where
  | OK
  | Error
  | Nack
  | Timeout
deriving DecidableEq

/-- One bus transaction as issued by a driver: target device address,
bytes written, and number of bytes requested in the read phase (0 for a
plain write; a write with empty tx is a zero-length probe). -/
structure I2CTxn where
  dev : Nat
  tx : List Nat
  rxLen : Nat
deriving DecidableEq

/-- A bus response environment: the status and read bytes the transport
returns for the n-th transaction issued by a single driver call. -/
abbrev I2CEnv : Type := Nat → I2CStatus × List Nat

/-- EEPROM capacity in bytes (EEPROM24FC256.hpp). -/
def CAPACITY : Nat := 32768

/-- EEPROM page size in bytes (EEPROM24FC256.hpp). -/
def PAGE_SIZE : Nat := 64

/-- Truncation toward zero of a rational: floor for nonnegative
arguments, ceiling for negative ones. This is the semantics of the C
cast static_cast to int16_t applied to an in-range float value. -/
def truncQ (q : ℚ) : ℤ := if 0 ≤ q then ⌊q⌋ else ⌈q⌉

/-- EEPROM24FC256.EncodeTemperature: multiply by 16 and truncate toward
zero via the int16_t cast. -/
def EncodeTemperature (temp : ℚ) : ℤ := truncQ (temp * 16)

/-- EEPROM24FC256.DecodeTemperature: divide by 16 with float division. -/
def DecodeTemperature (encoded : ℤ) : ℚ := (encoded : ℚ) / 16

/-- Two-complement 16-bit image of an integer, as a natural number below
65536: the bit pattern an int16_t value presents to the byte-extraction
shifts and masks. -/
def toUInt16 (z : ℤ) : Nat := (z % 65536).toNat

/-- Reinterpret a 16-bit pattern as a signed int16_t value, as the C
conversion from int to int16_t does. -/
def toInt16 (u : Nat) : ℤ :=
  if u % 65536 < 32768 then (u % 65536 : ℤ) else (u % 65536 : ℤ) - 65536

/-- Trace of zero-length probe transactions issued by
EEPROM24FC256.WaitForWriteComplete: up to fuel further attempts,
starting at transaction index idx. Each attempt issues one probe and
the loop returns at the first attempt whose status is OK. The C
function returns void, so the trace is its only observable behaviour;
maxAttempts is 100 in the source and the initial fuel is 100 at the
call site in LogData. -/
def WaitProbes (env : I2CEnv) (devAddr : Nat) : Nat → Nat → List I2CTxn
  | 0, _ => []
  | fuel + 1, idx =>
    { dev := devAddr, tx := [], rxLen := 0 } ::
      (if (env idx).1 = I2CStatus.OK then []
       else WaitProbes env devAddr fuel (idx + 1))

/-- EEPROM24FC256.LogData: capacity check, page-boundary check, encode,
4-byte big-endian data write (transaction 0), then the write-completion
poll (transactions 1 onward, at most 100 probes). Returns the boolean
result of the C function together with the trace of issued
transactions. memAddr is a uint16_t value; the sum memAddr + 2 is
computed in uint16_t where the C code stores it into endAddr, hence the
reduction mod 65536, while the capacity check itself is computed in
uint32_t and cannot wrap. -/
def LogData (env : I2CEnv) (devAddr memAddr : Nat) (temp : ℚ) :
    Bool × List I2CTxn :=
  if memAddr + 2 > CAPACITY then (false, [])
  else
    let pageNumber := memAddr / PAGE_SIZE
    let endAddr := (memAddr + 2) % 65536
    let nextPageNumber := endAddr / PAGE_SIZE
    if pageNumber ≠ nextPageNumber ∧ endAddr < CAPACITY then (false, [])
    else
      let encoded := EncodeTemperature temp
      let eu := toUInt16 encoded
      let payload := [memAddr / 256 % 256, memAddr % 256, eu / 256 % 256, eu % 256]
      let dataTxn : I2CTxn := { dev := devAddr, tx := payload, rxLen := 0 }
      if (env 0).1 ≠ I2CStatus.OK then (false, [dataTxn])
      else (true, dataTxn :: WaitProbes env devAddr 100 1)

/-- EEPROM24FC256.ReadData: bounds check, combined write-read of the two
big-endian address bytes with a 2-byte read phase (transaction 0),
sentinel -999 on any non-OK status, otherwise big-endian int16 decode
of the two read bytes. Read bytes are uint8_t, hence mod 256; a byte
the environment does not supply keeps the zero initialisation of the C
receive buffer. -/
def ReadData (env : I2CEnv) (devAddr memAddr : Nat) : ℚ × List I2CTxn :=
  if memAddr ≥ CAPACITY - 1 then (-999, [])
  else
    let addrTxn : I2CTxn :=
      { dev := devAddr, tx := [memAddr / 256 % 256, memAddr % 256], rxLen := 2 }
    if (env 0).1 ≠ I2CStatus.OK then (-999, [addrTxn])
    else
      let d0 := (env 0).2.getD 0 0 % 256
      let d1 := (env 0).2.getD 1 0 % 256
      (DecodeTemperature (toInt16 (d0 * 256 + d1)), [addrTxn])

/-- Default implementation of II2CController.WriteRead: a plain write
followed by a plain read, parametrised by the status each phase would
return for the given arguments. Only statuses are modelled; the receive
buffer is passed through to the read phase unchanged. -/
def WriteRead (write : Nat → List Nat → I2CStatus)
    (read : Nat → Nat → I2CStatus)
    (addr : Nat) (tx : List Nat) (rxLen : Nat) : I2CStatus :=
  if write addr tx ≠ I2CStatus.OK then I2CStatus.Error
  else read addr rxLen

/-- Subtraction of uint32_t values (both operands below 2 ^ 32). -/
def u32sub (a b : Nat) : Nat := (a + 4294967296 - b) % 4294967296

/-- State of the main control loop of main.cpp: the circular EEPROM
cursor (uint16_t eepromAddress), the time of the last triggered log
cycle (lastLogTime), the number of completed cycles (g_sampleCount) and
the result of the last storage write (g_writeSuccess). -/
structure MainState where
  eepromAddress : Nat
  lastLogTime : Nat
  sampleCount : Nat
  writeSuccess : Bool
deriving DecidableEq

/-- Initial controller state: cursor 0, lastLogTime 0, no samples. -/
def initState : MainState :=
  { eepromAddress := 0, lastLogTime := 0, sampleCount := 0, writeSuccess := false }

/-- Cursor update of one log cycle (main.cpp): advance the uint16_t
address by 2, then wrap to 0 once it is at least 32766. -/
def nextCursor (c : Nat) : Nat :=
  let advanced := (c + 2) % 65536
  if advanced ≥ 32766 then 0 else advanced

/-- One iteration of the main control loop of main.cpp: read the current
time; if at least 600 seconds have elapsed since the last trigger
(uint32_t subtraction), perform a log cycle: write the sample to the
EEPROM at the cursor through LogData, record the write result, advance
the cursor with wraparound, count the sample, and set the trigger time
to the observed current time. The temperature argument is the value
reaching the LogData call after the sensor-failure substitution in the
loop body; every property proved below holds for each such value. The
boolean result tells whether the iteration triggered a log cycle. -/
def mainIter (env : I2CEnv) (temperature : ℚ) (currentTime : Nat)
    (s : MainState) : Bool × MainState :=
  if u32sub currentTime s.lastLogTime ≥ 600 then
    let ws := (LogData env 80 s.eepromAddress temperature).1
    (true,
      { eepromAddress := nextCursor s.eepromAddress
        lastLogTime := currentTime
        sampleCount := s.sampleCount + 1
        writeSuccess := ws })
  else (false, s)

/-- Run the control loop over a list of successive time-source readings,
returning the readings at which a log cycle triggered. -/
def runLog (env : I2CEnv) (temperature : ℚ) :
    List Nat → MainState → List Nat
  | [], _ => []
  | t :: ts, s =>
    match mainIter env temperature t s with
    | (true, s2) => t :: runLog env temperature ts s2
    | (false, s2) => runLog env temperature ts s2

/-- Transport that acknowledges every transaction and returns no bytes. -/
def envAllOK : I2CEnv := fun _ => (I2CStatus.OK, [])

/-- Transport whose first transaction succeeds while every later one
(the 100 completion probes) comes back Nack. -/
def envProbeFail : I2CEnv :=
  fun n => if n = 0 then (I2CStatus.OK, []) else (I2CStatus.Nack, [])

/-- Transport that always answers Nack. -/
def envNack : I2CEnv := fun _ => (I2CStatus.Nack, [])

/-- Transport returning OK with the two data bytes 0xC1 0x90. -/
def envC190 : I2CEnv := fun _ => (I2CStatus.OK, [193, 144])

/-! ## Helper lemmas -/

/-- Truncation toward zero differs from its argument by less than 1. -/
theorem truncQ_dist (x : ℚ) : |((truncQ x : ℤ) : ℚ) - x| < 1 := by
  rw [truncQ]
  split
  · have h1 := Int.lt_floor_add_one x
    have h2 := Int.floor_le x
    rw [abs_sub_lt_iff]
    constructor <;> linarith
  · have h1 := Int.le_ceil x
    have h2 := Int.ceil_lt_add_one x
    rw [abs_sub_lt_iff]
    constructor <;> linarith

/-- The 16-bit image of an integer is below 65536. -/
theorem toUInt16_lt (z : ℤ) : toUInt16 z < 65536 := by
  have h1 : z % 65536 < 65536 := Int.emod_lt_of_pos z (by omega)
  have h2 : 0 ≤ z % 65536 := Int.emod_nonneg z (by omega)
  simp only [toUInt16]
  omega

/-- When no probe attempt in the polled window is acknowledged, the poll
issues exactly as many probes as it has fuel for. -/
theorem WaitProbes_length_of_fail (env : I2CEnv) (d : Nat) :
    ∀ fuel idx, (∀ k, idx ≤ k → k < idx + fuel → (env k).1 ≠ I2CStatus.OK) →
      (WaitProbes env d fuel idx).length = fuel := by
  intro fuel
  induction fuel with
  | zero => intro idx _; rfl
  | succ n ih =>
    intro idx h
    simp only [WaitProbes]
    rw [if_neg (h idx le_rfl (by omega)), List.length_cons]
    rw [ih (idx + 1) (fun k hk1 hk2 => h k (by omega) (by omega))]

/-- Every transaction the completion poll issues is a zero-length probe
addressed to the device. -/
theorem WaitProbes_shape (env : I2CEnv) (d : Nat) :
    ∀ fuel idx, ∀ txn ∈ WaitProbes env d fuel idx,
      txn = { dev := d, tx := [], rxLen := 0 } := by
  intro fuel
  induction fuel with
  | zero => intro idx txn h; simp [WaitProbes] at h
  | succ n ih =>
    intro idx txn h
    simp only [WaitProbes, List.mem_cons] at h
    rcases h with h | h
    · exact h
    · rcases Decidable.em ((env idx).1 = I2CStatus.OK) with hOK | hOK
      · rw [if_pos hOK] at h
        simp at h
      · rw [if_neg hOK] at h
        exact ih (idx + 1) txn h

/-- An address past the capacity check makes LogData fail with an empty
transaction trace. -/
theorem LogData_cap_reject (env : I2CEnv) (d a : Nat) (t : ℚ)
    (h : a + 2 > CAPACITY) : LogData env d a t = (false, []) := by
  simp only [LogData]
  rw [if_pos h]

/-- A mid-store page-boundary crossing makes LogData fail with an empty
transaction trace. -/
theorem LogData_page_reject (env : I2CEnv) (d a : Nat) (t : ℚ)
    (hcap : a + 2 ≤ CAPACITY)
    (hcross : a / PAGE_SIZE ≠ (a + 2) / PAGE_SIZE)
    (hend : a + 2 < CAPACITY) : LogData env d a t = (false, []) := by
  simp only [CAPACITY, PAGE_SIZE] at hcap hcross hend
  have hmod : (a + 2) % 65536 = a + 2 := Nat.mod_eq_of_lt (by omega)
  simp only [LogData, CAPACITY, PAGE_SIZE]
  rw [if_neg (by omega : ¬ a + 2 > 32768)]
  rw [hmod]
  rw [if_pos ⟨hcross, hend⟩]

/-- On a validation-passing address, LogData issues the 4-byte big-endian
data write and its result is decided by the data-write status alone. -/
theorem LogData_accept (env : I2CEnv) (d a : Nat) (t : ℚ)
    (hcap : a + 2 ≤ CAPACITY)
    (hpage : a / PAGE_SIZE = (a + 2) / PAGE_SIZE ∨ a + 2 = CAPACITY) :
    LogData env d a t =
      if (env 0).1 ≠ I2CStatus.OK then
        (false, [{ dev := d,
                   tx := [a / 256 % 256, a % 256,
                          toUInt16 (EncodeTemperature t) / 256 % 256,
                          toUInt16 (EncodeTemperature t) % 256],
                   rxLen := 0 }])
      else
        (true, { dev := d,
                 tx := [a / 256 % 256, a % 256,
                        toUInt16 (EncodeTemperature t) / 256 % 256,
                        toUInt16 (EncodeTemperature t) % 256],
                 rxLen := 0 } :: WaitProbes env d 100 1) := by
  simp only [CAPACITY, PAGE_SIZE] at hcap hpage
  have hmod : (a + 2) % 65536 = a + 2 := Nat.mod_eq_of_lt (by omega)
  simp only [LogData, CAPACITY, PAGE_SIZE]
  rw [if_neg (by omega : ¬ a + 2 > 32768)]
  rw [hmod]
  rw [if_neg (by omega : ¬ (a / 64 ≠ (a + 2) / 64 ∧ a + 2 < 32768))]

/-- The cursor update keeps the cursor even and at most 32764. -/
theorem nextCursor_preserves (c : Nat) (h1 : c % 2 = 0) (h2 : c ≤ 32764) :
    nextCursor c % 2 = 0 ∧ nextCursor c ≤ 32764 := by
  simp only [nextCursor]
  rw [Nat.mod_eq_of_lt (by omega : c + 2 < 65536)]
  split <;> omega

/-- Iterating the cursor update from 0 stays even and at most 32764. -/
theorem nextCursor_iterate_inv (n : Nat) :
    nextCursor^[n] 0 % 2 = 0 ∧ nextCursor^[n] 0 ≤ 32764 := by
  induction n with
  | zero => exact ⟨rfl, by decide⟩
  | succ m ih =>
    rw [Function.iterate_succ_apply']
    exact nextCursor_preserves _ ih.1 ih.2

/-! ## Claim theorems -/

/-- C1: for every in-bounds, page-legal address and value, once the
4-byte data write comes back OK, LogData returns success regardless of
the write-completion poll; in particular with all 100 probe attempts
failing the result is still true while the trace shows the data write
followed by all 100 exhausted probes, so poll exhaustion is never
surfaced as a write failure. -/
theorem LogData_poll_exhaustion_still_success (env : I2CEnv) (d a : Nat)
    (t : ℚ) (hcap : a + 2 ≤ CAPACITY)
    (hpage : a / PAGE_SIZE = (a + 2) / PAGE_SIZE ∨ a + 2 = CAPACITY)
    (hwrite : (env 0).1 = I2CStatus.OK)
    (hpoll : ∀ k, 1 ≤ k → k ≤ 100 → (env k).1 ≠ I2CStatus.OK) :
    (LogData env d a t).1 = true ∧ (LogData env d a t).2.length = 101 := by
  rw [LogData_accept env d a t hcap hpage, if_neg (not_not_intro hwrite)]
  refine ⟨rfl, ?_⟩
  simp only [List.length_cons]
  rw [WaitProbes_length_of_fail env d 100 1
    (fun k hk1 hk2 => hpoll k hk1 (by omega))]

/-- C1 witness: address 0, a transport whose data write succeeds and
whose 100 probes all answer Nack. -/
theorem LogData_poll_exhaustion_still_success_witness :
    (LogData envProbeFail 80 0 0).1 = true ∧
      (LogData envProbeFail 80 0 0).2.length = 101 :=
  LogData_poll_exhaustion_still_success envProbeFail 80 0 0 (by decide)
    (Or.inl (by decide)) (by decide)
    (by
      intro k hk1 _
      simp only [envProbeFail]
      rw [if_neg (by omega : ¬ k = 0)]
      decide)

/-- C2: every address with address + 2 > 32768 is rejected by the pure
capacity check with no bus transaction issued; 32767 is rejected for
every value while 32766 passes validation and succeeds whenever the
transport acknowledges the data write. -/
theorem LogData_capacity_check (env : I2CEnv) (d a : Nat) (t t2 : ℚ)
    (ha : a < 65536) (hover : a + 2 > CAPACITY) :
    LogData env d a t = (false, []) ∧
    LogData env d 32767 t2 = (false, []) ∧
    ((env 0).1 = I2CStatus.OK → (LogData env d 32766 t).1 = true) := by
  refine ⟨LogData_cap_reject env d a t hover,
    LogData_cap_reject env d 32767 t2 (by decide), ?_⟩
  intro hok
  rw [LogData_accept env d 32766 t (by decide) (Or.inr (by decide))]
  rw [if_neg (not_not_intro hok)]

/-- C2 witness: address 40000 is rejected with an empty trace, address
32767 likewise, and address 32766 succeeds on an all-OK transport. -/
theorem LogData_capacity_check_witness :
    LogData envAllOK 80 40000 0 = (false, []) ∧
    LogData envAllOK 80 32767 0 = (false, []) ∧
    ((envAllOK 0).1 = I2CStatus.OK → (LogData envAllOK 80 32766 0).1 = true) :=
  LogData_capacity_check envAllOK 80 40000 0 0 (by decide) (by decide)

/-- C3: among addresses passing the capacity check, LogData rejects,
with no bus transaction issued, exactly those whose page number differs
from the page number of address + 2 while address + 2 < 32768;
address 62 is rejected for every value, while address 32766, whose
crossing sits exactly at the end of the store, is exempt and succeeds
on an acknowledging transport. -/
theorem LogData_page_boundary (env : I2CEnv) (d a : Nat) (t : ℚ)
    (hcap : a + 2 ≤ CAPACITY) :
    (a / PAGE_SIZE ≠ (a + 2) / PAGE_SIZE ∧ a + 2 < CAPACITY →
      LogData env d a t = (false, [])) ∧
    ((a / PAGE_SIZE = (a + 2) / PAGE_SIZE ∨ a + 2 = CAPACITY) →
      (env 0).1 = I2CStatus.OK → (LogData env d a t).1 = true) ∧
    LogData env d 62 t = (false, []) ∧
    ((env 0).1 = I2CStatus.OK → (LogData env d 32766 t).1 = true) := by
  refine ⟨?_, ?_, ?_, ?_⟩
  · intro h
    exact LogData_page_reject env d a t hcap h.1 h.2
  · intro hpage hok
    rw [LogData_accept env d a t hcap hpage, if_neg (not_not_intro hok)]
  · exact LogData_page_reject env d 62 t (by decide) (by decide) (by decide)
  · intro hok
    rw [LogData_accept env d 32766 t (by decide) (Or.inr (by decide))]
    rw [if_neg (not_not_intro hok)]

/-- C3 witness: address 62 with crossing pages is rejected with an empty
trace, and address 32766 succeeds on an all-OK transport. -/
theorem LogData_page_boundary_witness :
    LogData envAllOK 80 62 0 = (false, []) ∧
    (LogData envAllOK 80 32766 0).1 = true :=
  ⟨(LogData_page_boundary envAllOK 80 62 0 (by decide)).1 (by decide),
   (LogData_page_boundary envAllOK 80 62 0 (by decide)).2.2.2 rfl⟩

/-- C4: a triggered log cycle updates the cursor through nextCursor for
every transport and temperature, so success and failure of the storage
write advance it identically; nextCursor adds exactly 2 below the wrap
threshold and resets 32764 to 0 upon reaching 32766; iterated from
cursor 0, every reachable cursor is even and at most 32764, leaving
the final 2 bytes of the store unused. -/
theorem controller_cursor_invariant (env env2 : I2CEnv) (t t2 : ℚ)
    (time : Nat) (s : MainState) (n : Nat)
    (htrig : u32sub time s.lastLogTime ≥ 600) :
    (mainIter env t time s).2.eepromAddress = nextCursor s.eepromAddress ∧
    (mainIter env t time s).2.eepromAddress =
      (mainIter env2 t2 time s).2.eepromAddress ∧
    (∀ c, c + 2 < 32766 → nextCursor c = c + 2) ∧
    nextCursor 32764 = 0 ∧
    nextCursor^[n] 0 % 2 = 0 ∧ nextCursor^[n] 0 ≤ 32764 := by
  have hstep : ∀ (e : I2CEnv) (q : ℚ),
      (mainIter e q time s).2.eepromAddress = nextCursor s.eepromAddress := by
    intro e q
    simp only [mainIter]
    rw [if_pos htrig]
  refine ⟨hstep env t, by rw [hstep env t, hstep env2 t2], ?_, by decide,
    nextCursor_iterate_inv n⟩
  intro c hc
  simp only [nextCursor]
  rw [Nat.mod_eq_of_lt (by omega : c + 2 < 65536)]
  rw [if_neg (by omega : ¬ c + 2 ≥ 32766)]

/-- C4 witness: a triggered cycle at time 600 from the initial state on
two different transports, and the invariant after 5 iterations. -/
theorem controller_cursor_invariant_witness :
    (mainIter envAllOK 0 600 initState).2.eepromAddress =
      nextCursor initState.eepromAddress ∧
    (mainIter envAllOK 0 600 initState).2.eepromAddress =
      (mainIter envNack 1 600 initState).2.eepromAddress ∧
    (∀ c, c + 2 < 32766 → nextCursor c = c + 2) ∧
    nextCursor 32764 = 0 ∧
    nextCursor^[5] 0 % 2 = 0 ∧ nextCursor^[5] 0 ≤ 32764 :=
  controller_cursor_invariant envAllOK envNack 0 1 600 initState 5 (by decide)

/-- C5: an iteration triggers a log cycle exactly when at least 600
seconds have elapsed since the last trigger, and a triggering iteration
records the observed current time as the new lastLogTime; over a time
source advancing in 60-second steps from 0, exactly 12 trigger events
occur within the first 7200 seconds, at 600, 1200, ..., 7200. -/
theorem interval_trigger_times (env : I2CEnv) (t : ℚ) (time : Nat)
    (s : MainState) :
    ((mainIter env t time s).1 = true ↔ u32sub time s.lastLogTime ≥ 600) ∧
    ((mainIter env t time s).1 = true →
      (mainIter env t time s).2.lastLogTime = time) ∧
    runLog envAllOK 0 (List.map (fun i => 60 * i) (List.range 121)) initState =
      [600, 1200, 1800, 2400, 3000, 3600, 4200, 4800, 5400, 6000, 6600, 7200] ∧
    List.length
      [600, 1200, 1800, 2400, 3000, 3600, 4200, 4800, 5400, 6000, 6600, 7200] = 12 := by
  refine ⟨?_, ?_, by decide, by decide⟩
  · simp only [mainIter]
    split
    · next h => simpa using h
    · next h => simpa using h
  · intro htrig
    simp only [mainIter] at htrig ⊢
    rcases Decidable.em (u32sub time s.lastLogTime ≥ 600) with h | h
    · rw [if_pos h]
    · rw [if_neg h] at htrig
      simp at htrig

/-- C5 witness: instantiation at time 600 from the initial state. -/
theorem interval_trigger_times_witness :
    ((mainIter envAllOK 0 600 initState).1 = true ↔
      u32sub 600 initState.lastLogTime ≥ 600) ∧
    ((mainIter envAllOK 0 600 initState).1 = true →
      (mainIter envAllOK 0 600 initState).2.lastLogTime = 600) ∧
    runLog envAllOK 0 (List.map (fun i => 60 * i) (List.range 121)) initState =
      [600, 1200, 1800, 2400, 3000, 3600, 4200, 4800, 5400, 6000, 6600, 7200] ∧
    List.length
      [600, 1200, 1800, 2400, 3000, 3600, 4200, 4800, 5400, 6000, 6600, 7200] = 12 :=
  interval_trigger_times envAllOK 0 600 initState

/-- C6: ReadData returns the sentinel -999 for every address at least
32767, issuing no bus transaction, and for every non-OK transaction
status at an in-bounds address; otherwise it decodes the two returned
bytes as a big-endian signed 16-bit integer divided by 16; address
32767 yields the sentinel, and a transport answering Nack yields the
sentinel. -/
theorem ReadData_sentinel (env : I2CEnv) (d a : Nat) :
    (a ≥ CAPACITY - 1 → ReadData env d a = (-999, [])) ∧
    (a < CAPACITY - 1 → (env 0).1 ≠ I2CStatus.OK →
      (ReadData env d a).1 = -999) ∧
    (a < CAPACITY - 1 → (env 0).1 = I2CStatus.OK →
      (ReadData env d a).1 = DecodeTemperature (toInt16
        ((env 0).2.getD 0 0 % 256 * 256 + (env 0).2.getD 1 0 % 256))) ∧
    ReadData env d 32767 = (-999, []) ∧
    ((env 0).1 = I2CStatus.Nack → (ReadData env d 0).1 = -999) := by
  refine ⟨?_, ?_, ?_, ?_, ?_⟩
  · intro h
    simp only [ReadData]
    rw [if_pos h]
  · intro h hstat
    simp only [ReadData]
    rw [if_neg (by omega : ¬ a ≥ CAPACITY - 1), if_pos hstat]
  · intro h hstat
    simp only [ReadData]
    rw [if_neg (by omega : ¬ a ≥ CAPACITY - 1),
      if_neg (not_not_intro hstat)]
  · simp only [ReadData, CAPACITY]
    rw [if_pos (by omega : 32767 ≥ 32768 - 1)]
  · intro h
    simp only [ReadData, CAPACITY]
    rw [if_neg (by omega : ¬ 0 ≥ 32768 - 1), if_pos (by rw [h]; decide)]

/-- C6 witness: instantiation on the always-Nack transport. -/
theorem ReadData_sentinel_witness :
    ReadData envNack 80 40000 = (-999, []) ∧
    (ReadData envNack 80 0).1 = -999 :=
  ⟨(ReadData_sentinel envNack 80 40000).1 (by decide),
   (ReadData_sentinel envNack 80 40000).2.2.2.2 rfl⟩

/-- C7: the codec encodes by multiplying by 16 and truncating toward
zero (the value -73/80 encodes to -14, where floor or round-to-nearest
would give -15) and decodes by real division by 16; for every value in
the sensor range the round trip lands within 1/16 of the original. -/
theorem codec_round_trip (v : ℚ) (h1 : -55 ≤ v) (h2 : v ≤ 125) :
    |DecodeTemperature (EncodeTemperature v) - v| ≤ 1 / 16 ∧
    EncodeTemperature v = truncQ (v * 16) ∧
    DecodeTemperature (EncodeTemperature v) = ((truncQ (v * 16) : ℤ) : ℚ) / 16 ∧
    EncodeTemperature (-73 / 80) = -14 := by
  refine ⟨?_, rfl, rfl, ?_⟩
  · have hd := truncQ_dist (v * 16)
    have heq : DecodeTemperature (EncodeTemperature v) - v =
        (((truncQ (v * 16) : ℤ) : ℚ) - v * 16) / 16 := by
      simp only [DecodeTemperature, EncodeTemperature]
      ring
    rw [heq, abs_div, abs_of_pos (by norm_num : (0 : ℚ) < 16)]
    have habs : |((truncQ (v * 16) : ℤ) : ℚ) - v * 16| ≤ 1 := le_of_lt hd
    linarith
  · simp only [EncodeTemperature]
    rw [show ((-73 : ℚ) / 80 * 16) = -(73 / 5) by norm_num]
    rw [truncQ, if_neg (by norm_num), Int.ceil_neg]
    norm_num

/-- C7 witness: the value 45/2 lies in the sensor range and round-trips
within 1/16. -/
theorem codec_round_trip_witness :
    -55 ≤ (45 / 2 : ℚ) ∧ (45 / 2 : ℚ) ≤ 125 ∧
    |DecodeTemperature (EncodeTemperature (45 / 2 : ℚ)) - 45 / 2| ≤ 1 / 16 :=
  ⟨by norm_num, by norm_num,
    (codec_round_trip (45 / 2) (by norm_num) (by norm_num)).1⟩

/-- C8: every accepted write transmits, as the first and only
data-carrying bus transaction, the 4-byte payload of address high
byte, address low byte, encoded-sample high byte, encoded-sample low
byte, all big-endian, addressed to the device; every later transaction
in the trace is a zero-length probe. -/
theorem LogData_payload_bytes (env : I2CEnv) (d a : Nat) (t : ℚ)
    (ha : a < 65536) (hcap : a + 2 ≤ CAPACITY)
    (hpage : a / PAGE_SIZE = (a + 2) / PAGE_SIZE ∨ a + 2 = CAPACITY) :
    (LogData env d a t).2.head? = some
      { dev := d,
        tx := [a / 256 % 256, a % 256,
               toUInt16 (EncodeTemperature t) / 256 % 256,
               toUInt16 (EncodeTemperature t) % 256],
        rxLen := 0 } ∧
    a / 256 % 256 * 256 + a % 256 = a ∧
    toUInt16 (EncodeTemperature t) / 256 % 256 * 256 +
      toUInt16 (EncodeTemperature t) % 256 = toUInt16 (EncodeTemperature t) ∧
    (∀ txn ∈ (LogData env d a t).2.tail,
      txn = { dev := d, tx := [], rxLen := 0 }) := by
  rw [LogData_accept env d a t hcap hpage]
  have hu := toUInt16_lt (EncodeTemperature t)
  rcases Decidable.em ((env 0).1 = I2CStatus.OK) with hok | hok
  · rw [if_neg (not_not_intro hok)]
    exact ⟨rfl, by omega, by omega,
      fun txn h => WaitProbes_shape env d 100 1 txn h⟩
  · rw [if_pos hok]
    exact ⟨rfl, by omega, by omega, fun txn h => by simp at h⟩

/-- C8 witness: the accepted write at address 4 on an all-OK transport. -/
theorem LogData_payload_bytes_witness :
    (LogData envAllOK 80 4 0).2.head? = some
      { dev := 80,
        tx := [4 / 256 % 256, 4 % 256,
               toUInt16 (EncodeTemperature 0) / 256 % 256,
               toUInt16 (EncodeTemperature 0) % 256],
        rxLen := 0 } ∧
    4 / 256 % 256 * 256 + 4 % 256 = 4 ∧
    toUInt16 (EncodeTemperature 0) / 256 % 256 * 256 +
      toUInt16 (EncodeTemperature 0) % 256 = toUInt16 (EncodeTemperature 0) ∧
    (∀ txn ∈ (LogData envAllOK 80 4 0).2.tail,
      txn = { dev := 80, tx := [], rxLen := 0 }) :=
  LogData_payload_bytes envAllOK 80 4 0 (by decide) (by decide)
    (Or.inl (by decide))

/-- C9: the device response 0xC1 0x90 decodes as the signed 16-bit
integer -15984, and an in-bounds read of it under an OK status returns
exactly the sentinel -999, equal to what the out-of-bounds read at
32767 and the Nack-transport read return. -/
theorem ReadData_sentinel_collision :
    toInt16 (193 * 256 + 144) = -15984 ∧
    (envC190 0).1 = I2CStatus.OK ∧
    (ReadData envC190 80 0).1 = -999 ∧
    (ReadData envC190 80 0).1 = (ReadData envC190 80 32767).1 ∧
    (ReadData envC190 80 0).1 = (ReadData envNack 80 0).1 := by
  have hA : (ReadData envC190 80 0).1 = -999 := by
    simp only [ReadData, CAPACITY]
    rw [if_neg (by omega : ¬ 0 ≥ 32768 - 1), if_neg (by decide)]
    have ht : toInt16 (List.getD (envC190 0).2 0 0 % 256 * 256 +
        List.getD (envC190 0).2 1 0 % 256) = -15984 := by decide
    simp only [ht, DecodeTemperature]
    norm_num
  have hB : (ReadData envC190 80 32767).1 = -999 := by
    simp only [ReadData, CAPACITY]
    rw [if_pos (by omega : 32767 ≥ 32768 - 1)]
  have hC : (ReadData envNack 80 0).1 = -999 := by
    simp only [ReadData, CAPACITY]
    rw [if_neg (by omega : ¬ 0 ≥ 32768 - 1), if_pos (by decide)]
  exact ⟨by decide, rfl, hA, by rw [hA, hB], by rw [hA, hC]⟩

/-- C10: the default WriteRead of the bus interface collapses every
failing write phase to Error, discarding the write status, while a
write phase that succeeds hands back the read status unchanged. -/
theorem WriteRead_default_status (write : Nat → List Nat → I2CStatus)
    (read : Nat → Nat → I2CStatus) (addr : Nat) (tx : List Nat)
    (rxLen : Nat) :
    (write addr tx ≠ I2CStatus.OK →
      WriteRead write read addr tx rxLen = I2CStatus.Error) ∧
    (write addr tx = I2CStatus.OK →
      WriteRead write read addr tx rxLen = read addr rxLen) := by
  constructor
  · intro h
    simp only [WriteRead]
    rw [if_pos h]
  · intro h
    simp only [WriteRead]
    rw [if_neg (not_not_intro h)]

/-- C10 witness: a Nack write phase yields Error, an OK write phase
hands back the Timeout of the read phase. -/
theorem WriteRead_default_status_witness :
    WriteRead (fun _ _ => I2CStatus.Nack) (fun _ _ => I2CStatus.Timeout)
      80 [] 2 = I2CStatus.Error ∧
    WriteRead (fun _ _ => I2CStatus.OK) (fun _ _ => I2CStatus.Timeout)
      80 [] 2 = I2CStatus.Timeout :=
  ⟨(WriteRead_default_status (fun _ _ => I2CStatus.Nack)
      (fun _ _ => I2CStatus.Timeout) 80 [] 2).1 (by decide),
   (WriteRead_default_status (fun _ _ => I2CStatus.OK)
      (fun _ _ => I2CStatus.Timeout) 80 [] 2).2 rfl⟩

end TempLogger
